import Mathlib

/-!
Verification of the row-decoding layer (`src/row.rs`) of the
snowflake-connector-rs repository.

`SnowflakeRow` holds one result row as a list of nullable text cells plus a
shared column-name-to-index map; `get` looks a column up (after ASCII
uppercasing) and decodes its cell with the per-type `try_decode`
implementation.  Each Rust `SnowflakeDecode` impl is embedded as an explicit
Lean function `Option String → Except Error α`; Rust's `parse::<T>()` for the
integer types and `bool` is embedded from the standard library's documented
grammar (optional single sign, at least one decimal digit, range check).

Rust `f64` values are embedded by the type `F64` (an exact rational, an
infinity, or a NaN); the parser follows the documented `f64::from_str`
grammar exactly, so acceptance and rejection of input text — all the claims
below depend on — coincide with the Rust code, while the numeric value of an
accepted string is kept as the exact rational it denotes (IEEE-754 rounding
of that value to the nearest double is not modelled).
-/

deriving instance DecidableEq for Except

namespace Snowflake

/-- The only error constructor `row.rs` produces is `Error::Decode(String)`. -/
inductive Error where
  | Decode (msg : String)
deriving DecidableEq

/-- `fn unwrap(value: &Option<String>) -> Result<&String>` from `row.rs`:
absence of a cell value is the decode error "value is null". -/
def unwrap : Option String → Except Error String
  | some s => .ok s
  | none => .error (.Decode "value is null")

/-- `let value = unwrap(value)?;` — every non-`Option` decoder in `row.rs`
first unwraps the nullable cell and then runs its body on the text. -/
def withText (body : String → Except Error α) (v : Option String) : Except Error α :=
  match unwrap v with
  | .error e => .error e
  | .ok s => body s

/-- ASCII decimal digit test (`char::is_ascii_digit`). -/
def isDigitChar (c : Char) : Bool := 48 ≤ c.toNat && c.toNat ≤ 57

/-- Numeric value of an ASCII digit. -/
def digitVal (c : Char) : Nat := c.toNat - 48

/-- Value of a big-endian list of decimal digits. -/
def digitsVal (cs : List Char) : Nat := cs.foldl (fun a c => a * 10 + digitVal c) 0

/-- Core of Rust's `from_str_radix` for radix 10: at least one character and
every character a decimal digit; otherwise an `InvalidDigit` error (`none`). -/
def parseDigits (cs : List Char) : Option Nat :=
  if cs.isEmpty then none
  else if cs.all isDigitChar then some (digitsVal cs) else none

/-- Rust `str::parse` for an unsigned integer type with maximum `hi`:
one optional leading `+` (a `-` is not stripped for unsigned types),
then digits, then an overflow check. -/
def parseUnsigned (hi : Nat) (s : String) : Option Nat :=
  let ds :=
    match s.data with
    | c :: rest => if c = '+' then rest else c :: rest
    | [] => []
  match parseDigits ds with
  | some n => if n ≤ hi then some n else none
  | none => none

/-- Rust `str::parse` for a signed integer type with range `[lo, hi]`:
one optional leading `+` or `-`, digits, and the magnitude check on the
side of the sign. -/
def parseSigned (lo hi : Int) (s : String) : Option Int :=
  match s.data with
  | [] => none
  | c :: rest =>
    if c = '-' then
      match parseDigits rest with
      | some n => if lo ≤ -(n : Int) then some (-(n : Int)) else none
      | none => none
    else
      let ds := if c = '+' then rest else c :: rest
      match parseDigits ds with
      | some n => if (n : Int) ≤ hi then some ((n : Int)) else none
      | none => none

def u16Max : Nat := 65535
def u64Max : Nat := 2 ^ 64 - 1
def i64MinInt : Int := -(2 ^ 63)
def i64MaxInt : Int := 2 ^ 63 - 1

def parseU16 (s : String) : Option Nat := parseUnsigned u16Max s
def parseU64 (s : String) : Option Nat := parseUnsigned u64Max s
def parseI8 (s : String) : Option Int := parseSigned (-128) 127 s
def parseI32 (s : String) : Option Int := parseSigned (-2147483648) 2147483647 s
def parseI64 (s : String) : Option Int := parseSigned i64MinInt i64MaxInt s

/-- Rust `bool::from_str`: exactly the token `true` or the token `false`. -/
def parseRustBool (s : String) : Option Bool :=
  if s = "true" then some true else if s = "false" then some false else none

/-- `impl SnowflakeDecode for u64`. -/
def decodeU64 : Option String → Except Error Nat :=
  withText fun s =>
    match parseU64 s with
    | some n => .ok n
    | none => .error (.Decode ("'" ++ s ++ "' is not u64"))

/-- `impl SnowflakeDecode for i64`. -/
def decodeI64 : Option String → Except Error Int :=
  withText fun s =>
    match parseI64 s with
    | some n => .ok n
    | none => .error (.Decode ("'" ++ s ++ "' is not i64"))

/-- `impl SnowflakeDecode for i32`. -/
def decodeI32 : Option String → Except Error Int :=
  withText fun s =>
    match parseI32 s with
    | some n => .ok n
    | none => .error (.Decode ("'" ++ s ++ "' is not i32"))

/-- `impl SnowflakeDecode for i8`. -/
def decodeI8 : Option String → Except Error Int :=
  withText fun s =>
    match parseI8 s with
    | some n => .ok n
    | none => .error (.Decode ("'" ++ s ++ "' is not i8"))

/-- `impl SnowflakeDecode for String`: passthrough of the cell text. -/
def decodeString : Option String → Except Error String :=
  withText fun s => .ok s

/-- `impl SnowflakeDecode for bool`: first try `parse::<u16>()` (any value in
`0..=65535`, nonzero meaning `true`), then `parse::<bool>()`, else a decode
error. -/
def decodeBool : Option String → Except Error Bool :=
  withText fun s =>
    match parseU16 s with
    | some n => .ok (decide (0 < n))
    | none =>
      match parseRustBool s with
      | some b => .ok b
      | none => .error (.Decode ("'" ++ s ++ "' is not bool"))

/-- `impl<T> SnowflakeDecode for Option<T>`: a null cell is `Ok(None)`,
otherwise the inner decoder runs and its value is wrapped in `Some`. -/
def decodeOption (d : Option String → Except Error α) (v : Option String) :
    Except Error (Option α) :=
  if v.isNone then .ok none
  else
    match d v with
    | .ok x => .ok (some x)
    | .error e => .error e

/-- A Rust `f64` as produced by `f64::from_str`, kept exact: a finite value
is the exact rational the accepted text denotes (rounding to the nearest
IEEE-754 double is not modelled; no claim below depends on it), plus the
two infinities and NaN. -/
inductive F64 where
  | finite (q : Rat)
  | inf (neg : Bool)
  | nan
deriving DecidableEq

/-- ASCII lowercasing of one character, used for the case-insensitive
`inf` / `infinity` / `nan` keywords of `f64::from_str`. -/
def asciiLowerChar (c : Char) : Char :=
  if 65 ≤ c.toNat ∧ c.toNat ≤ 90 then Char.ofNat (c.toNat + 32) else c

/-- Longest leading run of decimal digits and the remaining characters. -/
def spanDigits : List Char → List Char × List Char
  | [] => ([], [])
  | c :: cs =>
    if isDigitChar c then
      let p := spanDigits cs
      (c :: p.1, p.2)
    else ([], c :: cs)

/-- Exponent suffix of the `f64::from_str` grammar: either nothing, or
`e`/`E`, an optional sign, and at least one digit, consuming the rest of
the input. -/
def parseExp : List Char → Option Int
  | [] => some 0
  | c :: cs =>
    if c = 'e' ∨ c = 'E' then
      match cs with
      | d :: ds =>
        if d = '+' then (parseDigits ds).map (fun n => (n : Int))
        else if d = '-' then (parseDigits ds).map (fun n => -(n : Int))
        else (parseDigits (d :: ds)).map (fun n => (n : Int))
      | [] => none
    else none

/-- Exact rational value of a decimal mantissa with `fracD.length` digits
after the point, scaled by `10 ^ e`. -/
def decValue (neg : Bool) (intD fracD : List Char) (e : Int) : Rat :=
  let m : Int := (digitsVal (intD ++ fracD) : Int)
  let sm := if neg then -m else m
  if 0 ≤ e then mkRat (sm * ((10 : Int) ^ e.toNat)) (10 ^ fracD.length)
  else mkRat sm (10 ^ fracD.length * 10 ^ (-e).toNat)

/-- Rust `f64::from_str`, following its documented grammar: an optional
sign, then case-insensitively `inf`, `infinity` or `nan`, or a mantissa
with at least one digit (`Digit+ | Digit+ . Digit* | Digit* . Digit+`)
followed by an optional exponent. -/
def parseF64 (s : String) : Option F64 :=
  let go : Bool → List Char → Option F64 := fun neg cs =>
    let lcs := cs.map asciiLowerChar
    if lcs = ['i', 'n', 'f'] ∨ lcs = ['i', 'n', 'f', 'i', 'n', 'i', 't', 'y'] then
      some (.inf neg)
    else if lcs = ['n', 'a', 'n'] then some .nan
    else
      let p1 := spanDigits cs
      let p2 :=
        match p1.2 with
        | c :: r => if c = '.' then spanDigits r else ([], p1.2)
        | [] => ([], p1.2)
      if p1.1.isEmpty && p2.1.isEmpty then none
      else (parseExp p2.2).map fun e => .finite (decValue neg p1.1 p2.1 e)
  match s.data with
  | [] => none
  | c :: cs =>
    if c = '+' then go false cs
    else if c = '-' then go true cs
    else go false (c :: cs)

/-- `impl SnowflakeDecode for f64`. -/
def decodeF64 : Option String → Except Error F64 :=
  withText fun s =>
    match parseF64 s with
    | some f => .ok f
    | none => .error (.Decode ("'" ++ s ++ "' is not f64"))

/-- Proleptic-Gregorian calendar date, the embedding of `chrono::NaiveDate`. -/
structure NaiveDate where
  year : Int
  month : Int
  day : Int
deriving DecidableEq

/-- Gregorian leap-year rule. -/
def isLeap (y : Int) : Bool := y % 4 = 0 ∧ (y % 100 ≠ 0 ∨ y % 400 = 0)

/-- Length of a month in the proleptic Gregorian calendar. -/
def daysInMonth (y m : Int) : Int :=
  if m = 2 then if isLeap y then 29 else 28
  else if m = 4 ∨ m = 6 ∨ m = 9 ∨ m = 11 then 30 else 31

/-- Days from 1970-01-01 to the civil date `y-m-d` (the standard
days-from-civil conversion; `/` on `Int` is floor division for the positive
divisors used here). -/
def daysFromCivil (y m d : Int) : Int :=
  let y2 := if m ≤ 2 then y - 1 else y
  let era := y2 / 400
  let yoe := y2 - era * 400
  let mp := if 2 < m then m - 3 else m + 9
  let doy := (153 * mp + 2) / 5 + d - 1
  let doe := yoe * 365 + yoe / 4 - yoe / 100 + doy
  era * 146097 + doe - 719468

/-- Civil date lying `z` days after 1970-01-01 (the standard civil-from-days
conversion). -/
def civilFromDays (z0 : Int) : NaiveDate :=
  let z := z0 + 719468
  let era := z / 146097
  let doe := z - era * 146097
  let yoe := (doe - doe / 1460 + doe / 36524 - doe / 146096) / 365
  let y := yoe + era * 400
  let doy := doe - (365 * yoe + yoe / 4 - yoe / 100)
  let mp := (5 * doy + 2) / 153
  let d := doy - (153 * mp + 2) / 5 + 1
  let m := if mp < 10 then mp + 3 else mp - 9
  ⟨if m ≤ 2 then y + 1 else y, m, d⟩

/-- Modelled from the spec: the repository's manifest (and the chrono crate
it pins) is not under `src/`, so the upper bound of the supported calendar
range is taken from chrono's documentation — `NaiveDate::MAX` is
December 31, 262142 CE — expressed here as its distance from the epoch
date. -/
def maxDaysFromEpoch : Int := daysFromCivil 262142 12 31

/-- chrono's `NaiveDate::checked_add_days` for a non-negative day count:
the sum as a civil date, or `None` past the end of the calendar range. -/
def checkedAddDays (dt : NaiveDate) (n : Nat) : Option NaiveDate :=
  let z := daysFromCivil dt.year dt.month dt.day + (n : Int)
  if z ≤ maxDaysFromEpoch then some (civilFromDays z) else none

/-- `impl SnowflakeDecode for chrono::NaiveDate`: the text must parse as a
`u64` count of days, which is added to 1970-01-01 with
`checked_add_days`. -/
def decodeNaiveDate : Option String → Except Error NaiveDate :=
  withText fun s =>
    match parseU64 s with
    | none => .error (.Decode ("'" ++ s ++ "' is not Date type"))
    | some d =>
      match checkedAddDays ⟨1970, 1, 1⟩ d with
      | some dt => .ok dt
      | none => .error (.Decode ("'" ++ s ++ "' is not a valid date"))

/-- The embedding of `chrono::NaiveDateTime`: a timezone-naive instant as
whole seconds since the epoch plus a nanosecond part. -/
structure NaiveDateTime where
  secs : Int
  nsec : Nat
deriving DecidableEq

def u32Max : Int := 4294967295

/-- Rust's saturating float-to-`i64` cast applied to an exact value. -/
def satCastI64 (x : Int) : Int :=
  if x < i64MinInt then i64MinInt else if i64MaxInt < x then i64MaxInt else x

/-- Rust's saturating float-to-`u32` cast applied to an exact value. -/
def satCastU32 (x : Int) : Nat :=
  if x < 0 then 0 else if u32Max < x then u32Max.toNat else x.toNat

/-- Truncation of a rational toward zero, the exact counterpart of
`f64::trunc`. -/
def ratTrunc (q : Rat) : Int := q.num.tdiv (q.den : Int)

/-- `v.trunc() as i64` on the exact `F64` value (infinities saturate to the
`i64` bounds, NaN casts to 0). -/
def f64TruncSecs : F64 → Int
  | .finite q => satCastI64 (ratTrunc q)
  | .inf neg => if neg then i64MinInt else i64MaxInt
  | .nan => 0

/-- `(v.fract() * 1_000_000_000.0) as u32` on the exact `F64` value. -/
def f64FractNanos : F64 → Nat
  | .finite q =>
    let t := ratTrunc q
    let fn : Int := q.num - t * (q.den : Int)
    satCastU32 ((fn * 1000000000).tdiv (q.den : Int))
  | .inf _ => 0
  | .nan => 0

/-- Modelled from the spec: the lower end of chrono's calendar range
(`NaiveDate::MIN` is January 1, 262143 BCE per its documentation), as
seconds since the epoch. -/
def minSecsFromEpoch : Int := daysFromCivil (-262143) 1 1 * 86400

/-- Modelled from the spec: the last representable second of chrono's
calendar range. -/
def maxSecsFromEpoch : Int := (maxDaysFromEpoch + 1) * 86400 - 1

/-- chrono's `NaiveDateTime::from_timestamp_opt`: defined for seconds
within the calendar range and nanoseconds below 2·10⁹ (values of 10⁹ and
above encode leap seconds). -/
def fromTimestampOpt (secs : Int) (nsec : Nat) : Option NaiveDateTime :=
  if minSecsFromEpoch ≤ secs ∧ secs ≤ maxSecsFromEpoch ∧ nsec < 2000000000 then
    some ⟨secs, nsec⟩
  else none

/-- Modelled from the spec: chrono's `parse_from_str` for the fixed pattern
`%Y-%m-%d %H:%M:%S` (the chrono crate is not under `src/`); per the spec it
accepts exactly the textual pattern `YYYY-MM-DD HH:MM:SS` with in-range
calendar and clock fields. -/
def parseTsPattern (s : String) : Option NaiveDateTime :=
  match s.data with
  | [y1, y2, y3, y4, '-', m1, m2, '-', d1, d2, ' ',
     h1, h2, ':', n1, n2, ':', e1, e2] =>
    if [y1, y2, y3, y4, m1, m2, d1, d2, h1, h2, n1, n2, e1, e2].all isDigitChar then
      let y : Int := (digitsVal [y1, y2, y3, y4] : Int)
      let mo : Int := (digitsVal [m1, m2] : Int)
      let da : Int := (digitsVal [d1, d2] : Int)
      let h : Int := (digitsVal [h1, h2] : Int)
      let mi : Int := (digitsVal [n1, n2] : Int)
      let se : Int := (digitsVal [e1, e2] : Int)
      if 1 ≤ mo ∧ mo ≤ 12 ∧ 1 ≤ da ∧ da ≤ daysInMonth y mo ∧
          h ≤ 23 ∧ mi ≤ 59 ∧ se ≤ 59 then
        some ⟨daysFromCivil y mo da * 86400 + h * 3600 + mi * 60 + se, 0⟩
      else none
    else none
  | _ => none

/-- `impl SnowflakeDecode for NaiveDateTime`: first try the text as a
numeric epoch value (truncated seconds, fractional part scaled by 10⁹ as
nanoseconds), then the fixed `%Y-%m-%d %H:%M:%S` pattern, else a decode
error. -/
def decodeNaiveDateTime : Option String → Except Error NaiveDateTime :=
  withText fun s =>
    match parseF64 s with
    | some f =>
      match fromTimestampOpt (f64TruncSecs f) (f64FractNanos f) with
      | some dt => .ok dt
      | none => .error (.Decode ("invalid datetime: " ++ s))
    | none =>
      match parseTsPattern s with
      | some dt => .ok dt
      | none => .error (.Decode ("'" ++ s ++ "' is not datetime"))

/-- ASCII uppercasing of one character (`u8::to_ascii_uppercase`). -/
def asciiUpperChar (c : Char) : Char :=
  if 97 ≤ c.toNat ∧ c.toNat ≤ 122 then Char.ofNat (c.toNat - 32) else c

/-- `str::to_ascii_uppercase`: bytes outside `a..=z` are unchanged, so the
character-wise map is equivalent to Rust's byte-wise one. -/
def toAsciiUppercase (s : String) : String := String.mk (s.data.map asciiUpperChar)

/-- `SnowflakeRow`: the nullable text cells of one row plus the shared
column-name-to-index map (the `Arc<HashMap<String, usize>>` is embedded as
an association list looked up by exact string equality). -/
structure SnowflakeRow where
  row : List (Option String)
  columnNames : List (String × Nat)

/-- `SnowflakeRow::get`: uppercase the requested name, resolve its index in
the shared map — a missing column is a decode error naming the requested
column — and decode the cell at that index with the requested type's
decoder.  The cell access `self.row[*index]` is unchecked in the source, so
the embedding returns `none` exactly when the index is out of bounds (a
Rust panic). -/
def SnowflakeRow.get (r : SnowflakeRow) (columnName : String)
    (tryDecode : Option String → Except Error α) : Option (Except Error α) :=
  match r.columnNames.lookup (toAsciiUppercase columnName) with
  | none => some (.error (.Decode ("column not found: " ++ columnName)))
  | some index => (r.row[index]?).map tryDecode

/-- Character of one decimal digit. -/
def digitChar (d : Nat) : Char := Char.ofNat (48 + d)

/-- Big-endian decimal digit characters of a natural number. -/
def natDigits (n : Nat) : List Char :=
  if _h : n < 10 then [digitChar n]
  else natDigits (n / 10) ++ [digitChar (n % 10)]
decreasing_by exact Nat.div_lt_self (by omega) (by omega)

/-- Modelled from the spec: the canonical decimal formatting of an unsigned
integer (Rust's `Display`, which the repository relies on but which is not
under `src/`). -/
def natReprStr (n : Nat) : String := String.mk (natDigits n)

/-- Modelled from the spec: the canonical decimal formatting of an `i64`
value — a minus sign for negative values followed by the decimal digits of
the magnitude (Rust's `Display`). -/
def i64Repr (n : Int) : String :=
  if n < 0 then String.mk ('-' :: natDigits n.natAbs) else String.mk (natDigits n.natAbs)

/-! ### Supporting lemmas -/

theorem char_toNat_ofNat (m : Nat) (h : m < 55296) : (Char.ofNat m).toNat = m := by
  have hv : m.isValidChar := Or.inl h
  simp only [Char.ofNat, hv, dite_true]
  rfl

theorem digitChar_toNat (d : Nat) (h : d < 10) : (digitChar d).toNat = 48 + d :=
  char_toNat_ofNat _ (by omega)

theorem isDigitChar_digitChar (d : Nat) (h : d < 10) : isDigitChar (digitChar d) = true := by
  simp [isDigitChar, digitChar_toNat d h]
  omega

theorem digitVal_digitChar (d : Nat) (h : d < 10) : digitVal (digitChar d) = d := by
  simp [digitVal, digitChar_toNat d h]

theorem natDigits_ne_nil (n : Nat) : natDigits n ≠ [] := by
  unfold natDigits
  split
  · simp
  · simp

theorem natDigits_all_digits (n : Nat) : (natDigits n).all isDigitChar = true := by
  induction n using natDigits.induct with
  | case1 n h => rw [natDigits]; simp [h, isDigitChar_digitChar n h]
  | case2 n h ih =>
    rw [natDigits]
    simp only [h, dite_false, List.all_append, ih, Bool.true_and, List.all_cons,
      List.all_nil, Bool.and_true]
    exact isDigitChar_digitChar (n % 10) (by omega)

theorem digitsVal_natDigits (n : Nat) : digitsVal (natDigits n) = n := by
  induction n using natDigits.induct with
  | case1 n h =>
    rw [natDigits]
    simp [h, digitsVal, digitVal_digitChar n h]
  | case2 n h ih =>
    rw [natDigits]
    simp only [h, dite_false]
    rw [digitsVal, List.foldl_append]
    show (digitsVal (natDigits (n / 10))) * 10 + digitVal (digitChar (n % 10)) = n
    rw [ih, digitVal_digitChar (n % 10) (by omega)]
    omega

theorem parseDigits_natDigits (n : Nat) : parseDigits (natDigits n) = some n := by
  have h1 : (natDigits n).isEmpty = false := by
    cases hl : natDigits n with
    | nil => exact absurd hl (natDigits_ne_nil n)
    | cons c cs => rfl
  rw [parseDigits, h1, natDigits_all_digits n, digitsVal_natDigits n]
  rfl

theorem natDigits_head_digit (n : Nat) (c : Char) (cs : List Char)
    (h : natDigits n = c :: cs) : isDigitChar c = true := by
  have hall := natDigits_all_digits n
  rw [h, List.all_cons, Bool.and_eq_true] at hall
  exact hall.1

theorem digit_ne_plus {c : Char} (h : isDigitChar c = true) : c ≠ '+' := by
  intro hc
  subst hc
  exact absurd h (by decide)

theorem digit_ne_minus {c : Char} (h : isDigitChar c = true) : c ≠ '-' := by
  intro hc
  subst hc
  exact absurd h (by decide)

theorem data_mk (cs : List Char) : (String.mk cs).data = cs := rfl

theorem parseUnsigned_natReprStr (hi n : Nat) :
    parseUnsigned hi (natReprStr n) = if n ≤ hi then some n else none := by
  obtain ⟨c, cs, hl⟩ : ∃ c cs, natDigits n = c :: cs := by
    cases hd : natDigits n with
    | nil => exact absurd hd (natDigits_ne_nil n)
    | cons c cs => exact ⟨c, cs, rfl⟩
  have hcp : c ≠ '+' := digit_ne_plus (natDigits_head_digit n c cs hl)
  rw [parseUnsigned, natReprStr, data_mk, hl]
  simp only [hcp, if_false, ← hl, parseDigits_natDigits n]

theorem parseSigned_i64Repr (lo hi n : Int) (hlo : lo ≤ n) (hhi : n ≤ hi) :
    parseSigned lo hi (i64Repr n) = some n := by
  by_cases hn : n < 0
  · rw [i64Repr, if_pos hn, parseSigned, data_mk]
    simp only [if_pos rfl, parseDigits_natDigits n.natAbs]
    have habs : ((n.natAbs : Int)) = -n := Int.ofNat_natAbs_of_nonpos (by omega)
    rw [habs]
    simp [hlo]
  · obtain ⟨c, cs, hl⟩ : ∃ c cs, natDigits n.natAbs = c :: cs := by
      cases hd : natDigits n.natAbs with
      | nil => exact absurd hd (natDigits_ne_nil n.natAbs)
      | cons c cs => exact ⟨c, cs, rfl⟩
    have hd := natDigits_head_digit n.natAbs c cs hl
    have hcp : c ≠ '+' := digit_ne_plus hd
    have hcm : c ≠ '-' := digit_ne_minus hd
    rw [i64Repr, if_neg hn, parseSigned, data_mk, hl]
    simp only [hcm, if_false, hcp, ← hl, parseDigits_natDigits n.natAbs]
    have habs : ((n.natAbs : Int)) = n := Int.natAbs_of_nonneg (by omega)
    rw [habs]
    simp [hhi]

theorem mem_of_lookup_eq_some {l : List (String × Nat)} {k : String} {i : Nat}
    (h : l.lookup k = some i) : (k, i) ∈ l := by
  induction l with
  | nil => simp [List.lookup] at h
  | cons p rest ih =>
    obtain ⟨a, b⟩ := p
    rw [List.lookup_cons] at h
    cases hbeq : (k == a) with
    | true =>
      rw [hbeq] at h
      have hk : k = a := by simpa using hbeq
      cases h
      subst hk
      exact List.mem_cons_self _ _
    | false =>
      rw [hbeq] at h
      exact List.mem_cons_of_mem _ (ih h)

theorem asciiUpperChar_notLower (c : Char) :
    ¬(97 ≤ (asciiUpperChar c).toNat ∧ (asciiUpperChar c).toNat ≤ 122) := by
  rw [asciiUpperChar]
  split
  · next h =>
    rw [char_toNat_ofNat _ (by omega)]
    omega
  · next h => exact h

theorem asciiUpperChar_idem (c : Char) :
    asciiUpperChar (asciiUpperChar c) = asciiUpperChar c := by
  rw [asciiUpperChar, if_neg (asciiUpperChar_notLower c)]

theorem map_upper_idem (l : List Char) :
    (l.map asciiUpperChar).map asciiUpperChar = l.map asciiUpperChar := by
  induction l with
  | nil => rfl
  | cons c cs ih => simp only [List.map_cons, asciiUpperChar_idem c, ih]

theorem toAsciiUppercase_idem (s : String) :
    toAsciiUppercase (toAsciiUppercase s) = toAsciiUppercase s := by
  rw [toAsciiUppercase, toAsciiUppercase, data_mk, map_upper_idem]

/-! ### The claims -/

/-- C1 counterexample: the claim's vector that `"2"` fails to decode as a
boolean is false — `"2"` parses as the nonzero `u16` value 2, so the first
branch of the `bool` decoder returns `true`. -/
theorem C1_counterexample : decodeBool (some "2") = .ok true := by decide

/-- C1 (amended): boolean decode vectors as the code computes them — `"1"`
decodes to `true`, `"0"` to `false`, `"true"` and `"false"` to themselves,
`"yes"` fails with a decode error, and `"2"` (a nonzero integer in the
`u16` range) decodes to `true` rather than failing. -/
theorem C1_amended :
    decodeBool (some "1") = .ok true ∧ decodeBool (some "0") = .ok false ∧
    decodeBool (some "true") = .ok true ∧ decodeBool (some "false") = .ok false ∧
    decodeBool (some "2") = .ok true ∧
    decodeBool (some "yes") = .error (.Decode "'yes' is not bool") :=
  ⟨by decide, by decide, by decide, by decide, by decide, by decide⟩

/-- C2: every non-nullable decoder of `row.rs` starts with `unwrap(value)?`
— the first conjunct shows any such decoder fails on an absent cell with
the decode error "value is null", and the per-type conjuncts instantiate it
for each embedded decoder — while `Option<T>`'s decoder maps an absent cell
to a successful `None` for every inner type `T`. -/
theorem C2_null_handling :
    (∀ (α : Type) (body : String → Except Error α),
      withText body none = .error (.Decode "value is null")) ∧
    decodeU64 none = .error (.Decode "value is null") ∧
    decodeI64 none = .error (.Decode "value is null") ∧
    decodeI32 none = .error (.Decode "value is null") ∧
    decodeI8 none = .error (.Decode "value is null") ∧
    decodeF64 none = .error (.Decode "value is null") ∧
    decodeString none = .error (.Decode "value is null") ∧
    decodeBool none = .error (.Decode "value is null") ∧
    decodeNaiveDate none = .error (.Decode "value is null") ∧
    decodeNaiveDateTime none = .error (.Decode "value is null") ∧
    (∀ (α : Type) (d : Option String → Except Error α), decodeOption d none = .ok none) :=
  ⟨fun _ _ => rfl, rfl, rfl, rfl, rfl, rfl, rfl, rfl, rfl, rfl, fun _ _ => rfl⟩

/-- C3: for every row (any cell contents), requested decoder and column name
whose ASCII-uppercased form is absent from the shared column map, `get`
fails with a decode error naming the missing column as the caller wrote
it. -/
theorem C3_unknown_column (cells : List (Option String)) (m : List (String × Nat))
    (name : String) (α : Type) (d : Option String → Except Error α)
    (h : m.lookup (toAsciiUppercase name) = none) :
    SnowflakeRow.get ⟨cells, m⟩ name d =
      some (.error (.Decode ("column not found: " ++ name))) := by
  simp only [SnowflakeRow.get, h]

/-- C3 witness: looking up a column in a row with an empty column map fails
with the decode error naming it. -/
theorem C3_unknown_column_witness :
    SnowflakeRow.get ⟨[], []⟩ "missing" decodeI64 =
      some (.error (.Decode "column not found: missing")) :=
  C3_unknown_column [] [] "missing" Int decodeI64 rfl

/-- C4: date decoding — `"0"` decodes to 1970-01-01 and `"1"` to
1970-01-02; negative text (`"-1"`) and every string the `u64` parse
rejects is a decode error; and every day count beyond the calendar range
(`maxDaysFromEpoch` days past the epoch) is a decode error, whether it
exceeds the calendar bound or the `u64` range itself. -/
theorem C4_date_decode :
    decodeNaiveDate (some "0") = .ok ⟨1970, 1, 1⟩ ∧
    decodeNaiveDate (some "1") = .ok ⟨1970, 1, 2⟩ ∧
    decodeNaiveDate (some "-1") = .error (.Decode "'-1' is not Date type") ∧
    (∀ s : String, parseU64 s = none →
      decodeNaiveDate (some s) = .error (.Decode ("'" ++ s ++ "' is not Date type"))) ∧
    (∀ d : Nat, maxDaysFromEpoch < (d : Int) →
      ∃ msg, decodeNaiveDate (some (natReprStr d)) = .error (.Decode msg)) := by
  refine ⟨by decide, by decide, by decide, ?_, ?_⟩
  · intro s hs
    simp [decodeNaiveDate, withText, unwrap, hs]
  · intro d hd
    by_cases hle : d ≤ u64Max
    · refine ⟨"'" ++ natReprStr d ++ "' is not a valid date", ?_⟩
      have hp : parseU64 (natReprStr d) = some d := by
        rw [parseU64, parseUnsigned_natReprStr, if_pos hle]
      have hadd : checkedAddDays ⟨1970, 1, 1⟩ d = none := by
        rw [checkedAddDays]
        have h0 : daysFromCivil 1970 1 1 = 0 := by decide
        simp only [h0]
        rw [if_neg]
        omega
      simp [decodeNaiveDate, withText, unwrap, hp, hadd]
    · refine ⟨"'" ++ natReprStr d ++ "' is not Date type", ?_⟩
      have hp : parseU64 (natReprStr d) = none := by
        rw [parseU64, parseUnsigned_natReprStr, if_neg hle]
      simp [decodeNaiveDate, withText, unwrap, hp]

/-- C4 witness: non-numeric text and an over-range day count
(95026237 days, one past chrono's maximum date) both fail. -/
theorem C4_date_decode_witness :
    decodeNaiveDate (some "x") = .error (.Decode "'x' is not Date type") ∧
    (∃ msg, decodeNaiveDate (some (natReprStr 95026237)) = .error (.Decode msg)) :=
  ⟨C4_date_decode.2.2.2.1 "x" (by decide), C4_date_decode.2.2.2.2 95026237 (by decide)⟩

/-- C5: timestamp decoding — `"0"` decodes to the epoch instant with zero
nanoseconds, `"1.5"` to one second plus 500 000 000 nanoseconds past the
epoch, `"2024-01-01 00:00:00"` parses via the textual pattern to the same
instant as its numeric equivalent `"1704067200"`, and any text accepted by
neither the numeric grammar nor the pattern is a decode error. -/
theorem C5_timestamp_decode :
    decodeNaiveDateTime (some "0") = .ok ⟨0, 0⟩ ∧
    decodeNaiveDateTime (some "1.5") = .ok ⟨1, 500000000⟩ ∧
    decodeNaiveDateTime (some "2024-01-01 00:00:00") = .ok ⟨1704067200, 0⟩ ∧
    decodeNaiveDateTime (some "1704067200") = .ok ⟨1704067200, 0⟩ ∧
    (∀ s : String, parseF64 s = none → parseTsPattern s = none →
      decodeNaiveDateTime (some s) = .error (.Decode ("'" ++ s ++ "' is not datetime"))) := by
  refine ⟨by decide, by decide, by decide, by decide, ?_⟩
  intro s h1 h2
  simp [decodeNaiveDateTime, withText, unwrap, h1, h2]

/-- C5 witness: text accepted by neither branch fails with the datetime
decode error. -/
theorem C5_timestamp_decode_witness :
    decodeNaiveDateTime (some "abc") = .error (.Decode "'abc' is not datetime") :=
  C5_timestamp_decode.2.2.2.2 "abc" (by decide) (by decide)

/-- C6: for each numeric target type (i8, i32, i64, u64, f64) the decoder
is the direct parse of the cell text — a successful parse is returned
as-is and a parse failure is a decode error naming both the offending text
and the target type.  Each decoder is a pure function of the single cell,
so a failure cannot affect any other cell or row. -/
theorem C6_numeric_parse (s : String) :
    (∀ n, parseI8 s = some n → decodeI8 (some s) = .ok n) ∧
    (parseI8 s = none → decodeI8 (some s) = .error (.Decode ("'" ++ s ++ "' is not i8"))) ∧
    (∀ n, parseI32 s = some n → decodeI32 (some s) = .ok n) ∧
    (parseI32 s = none → decodeI32 (some s) = .error (.Decode ("'" ++ s ++ "' is not i32"))) ∧
    (∀ n, parseI64 s = some n → decodeI64 (some s) = .ok n) ∧
    (parseI64 s = none → decodeI64 (some s) = .error (.Decode ("'" ++ s ++ "' is not i64"))) ∧
    (∀ n, parseU64 s = some n → decodeU64 (some s) = .ok n) ∧
    (parseU64 s = none → decodeU64 (some s) = .error (.Decode ("'" ++ s ++ "' is not u64"))) ∧
    (∀ f, parseF64 s = some f → decodeF64 (some s) = .ok f) ∧
    (parseF64 s = none → decodeF64 (some s) = .error (.Decode ("'" ++ s ++ "' is not f64"))) := by
  refine ⟨?_, ?_, ?_, ?_, ?_, ?_, ?_, ?_, ?_, ?_⟩ <;>
    first
      | (intro n h
         simp [decodeI8, decodeI32, decodeI64, decodeU64, decodeF64, withText, unwrap, h])
      | (intro h
         simp [decodeI8, decodeI32, decodeI64, decodeU64, decodeF64, withText, unwrap, h])

/-- C6 witness: `"zz"` fails for every numeric type with the message naming
the text and the type, and `"7"` parses for every numeric type. -/
theorem C6_numeric_parse_witness :
    decodeI8 (some "zz") = .error (.Decode "'zz' is not i8") ∧
    decodeI32 (some "zz") = .error (.Decode "'zz' is not i32") ∧
    decodeI64 (some "zz") = .error (.Decode "'zz' is not i64") ∧
    decodeU64 (some "zz") = .error (.Decode "'zz' is not u64") ∧
    decodeF64 (some "zz") = .error (.Decode "'zz' is not f64") ∧
    decodeI8 (some "7") = .ok 7 ∧
    decodeI32 (some "7") = .ok 7 ∧
    decodeI64 (some "7") = .ok 7 ∧
    decodeU64 (some "7") = .ok 7 ∧
    decodeF64 (some "7") = .ok (.finite 7) :=
  ⟨(C6_numeric_parse "zz").2.1 (by decide),
   (C6_numeric_parse "zz").2.2.2.1 (by decide),
   (C6_numeric_parse "zz").2.2.2.2.2.1 (by decide),
   (C6_numeric_parse "zz").2.2.2.2.2.2.2.1 (by decide),
   (C6_numeric_parse "zz").2.2.2.2.2.2.2.2.2 (by decide),
   (C6_numeric_parse "7").1 7 (by decide),
   (C6_numeric_parse "7").2.2.1 7 (by decide),
   (C6_numeric_parse "7").2.2.2.2.1 7 (by decide),
   (C6_numeric_parse "7").2.2.2.2.2.2.1 7 (by decide),
   (C6_numeric_parse "7").2.2.2.2.2.2.2.2.1 (.finite 7) (by decide)⟩

/-- C7: decoding is deterministic (it is a pure function, restated by the
second conjunct) and round-trips canonical decimal formatting — for every
value in the `i64` range, decoding the cell holding its decimal string
representation returns exactly that value. -/
theorem C7_i64_roundtrip (n : Int) (h1 : i64MinInt ≤ n) (h2 : n ≤ i64MaxInt) :
    decodeI64 (some (i64Repr n)) = .ok n ∧
    ∀ v : Option String, decodeI64 v = decodeI64 v := by
  refine ⟨?_, fun _ => rfl⟩
  have hp : parseI64 (i64Repr n) = some n :=
    parseSigned_i64Repr i64MinInt i64MaxInt n h1 h2
  simp [decodeI64, withText, unwrap, hp]

/-- C7 witness: the round trip at 42. -/
theorem C7_i64_roundtrip_witness :
    decodeI64 (some (i64Repr 42)) = .ok 42 :=
  (C7_i64_roundtrip 42 (by decide) (by decide)).1

/-- C8: under the result-set invariant — every index stored in the shared
column map is below the number of cells — `get` is total: it always
returns a value (a decoded value or a decode error) and never hits the
unchecked-index panic, embedded here as the `none` outcome.  The second
conjunct shows the panic outcome is reachable once the invariant is
dropped. -/
theorem C8_get_total :
    (∀ (r : SnowflakeRow), (∀ p ∈ r.columnNames, p.2 < r.row.length) →
      ∀ (α : Type) (name : String) (d : Option String → Except Error α),
        (r.get name d).isSome = true) ∧
    SnowflakeRow.get ⟨[some "x"], [("A", 5)]⟩ "A" decodeString = none := by
  constructor
  · intro r hwf α name d
    cases hl : r.columnNames.lookup (toAsciiUppercase name) with
    | none => simp [SnowflakeRow.get, hl]
    | some i =>
      have hlt : i < r.row.length := hwf _ (mem_of_lookup_eq_some hl)
      simp [SnowflakeRow.get, hl, List.getElem?_eq_getElem hlt]
  · decide

/-- C8 witness: a well-formed one-column row always produces an outcome. -/
theorem C8_get_total_witness :
    (SnowflakeRow.get ⟨[some "1"], [("ID", 0)]⟩ "id" decodeI64).isSome = true :=
  C8_get_total.1 ⟨[some "1"], [("ID", 0)]⟩ (by decide) Int "id" decodeI64

/-- C10 counterexample: the claim that `get row c` always returns the same
result as `get row (ascii_uppercase c)` is false — when the column is
absent, each call's decode error names the column as that call received
it, so the two results differ on a lowercase name. -/
theorem C10_counterexample :
    SnowflakeRow.get ⟨[], []⟩ "a" decodeString ≠
      SnowflakeRow.get ⟨[], []⟩ (toAsciiUppercase "a") decodeString := by
  decide

/-- C10 (amended): column lookup is case-insensitive over ASCII letters
only, in the sense that `get row c` and `get row (ascii_uppercase c)`
resolve the same column — they are equal whenever the uppercased name is in
the map, and when it is absent both fail with a column-not-found decode
error that names the name as each call received it; a name differing from
a map key only in the case of a non-ASCII letter is not matched and yields
the column-not-found decode error. -/
theorem C10_amended :
    (∀ (r : SnowflakeRow) (name : String) (i : Nat) (α : Type)
        (d : Option String → Except Error α),
      r.columnNames.lookup (toAsciiUppercase name) = some i →
      r.get name d = r.get (toAsciiUppercase name) d) ∧
    (∀ (r : SnowflakeRow) (name : String) (α : Type)
        (d : Option String → Except Error α),
      r.columnNames.lookup (toAsciiUppercase name) = none →
      r.get name d = some (.error (.Decode ("column not found: " ++ name))) ∧
      r.get (toAsciiUppercase name) d =
        some (.error (.Decode ("column not found: " ++ toAsciiUppercase name)))) ∧
    SnowflakeRow.get ⟨[some "x"], [("ä", 0)]⟩ "Ä" decodeString =
      some (.error (.Decode "column not found: Ä")) := by
  refine ⟨?_, ?_, by decide⟩
  · intro r name i α d h
    rw [SnowflakeRow.get, SnowflakeRow.get, toAsciiUppercase_idem, h]
  · intro r name α d h
    constructor
    · rw [SnowflakeRow.get, h]
    · rw [SnowflakeRow.get, toAsciiUppercase_idem, h]

/-- C10 (amended) witness: a present column resolves identically through
either spelling, and an absent one fails through both spellings. -/
theorem C10_amended_witness :
    SnowflakeRow.get ⟨[some "7"], [("ID", 0)]⟩ "id" decodeI64 =
      SnowflakeRow.get ⟨[some "7"], [("ID", 0)]⟩ (toAsciiUppercase "id") decodeI64 ∧
    SnowflakeRow.get ⟨[], []⟩ "missingcol" decodeString =
      some (.error (.Decode "column not found: missingcol")) ∧
    SnowflakeRow.get ⟨[], []⟩ (toAsciiUppercase "missingcol") decodeString =
      some (.error (.Decode ("column not found: " ++ toAsciiUppercase "missingcol"))) := by
  have h1 := C10_amended.1 ⟨[some "7"], [("ID", 0)]⟩ "id" 0 Int decodeI64 (by decide)
  have h2 := C10_amended.2.1 ⟨[], []⟩ "missingcol" String decodeString (by decide)
  exact ⟨h1, h2.1, h2.2⟩

end Snowflake
